import Mathlib

/-!
Shallow embedding of the fantasy-baseball backend's core pipeline
(`src/app/api/routes.py`): the aggregate stat calculator
(`get_current_team_stats`), the gap calculator (`calculate_category_gaps`),
the standard-gain scorer (`calculate_sg_value`), the candidate-pool queries
(`get_available_hitters` / `get_available_pitchers`), the lineup optimizer's
variable construction, constraint families and extraction loop
(`generate_optimal_lineup`), and the thin per-team stat endpoints
(`get_team_hitting_stats` / `get_team_pitching_stats`).

Python floats are modelled as rationals (ℚ); SQL NULL / missing dict keys as
`Option`; database rows as Lean structures; queries as list filters over a
list of rows; the imperative accumulation loops as structural recursions over
row lists.
-/

namespace FantasyBaseball

/-- The null guard `x if x is not None else 0` used throughout the source. -/
def orZero (x : Option ℚ) : ℚ := x.getD 0

/-- A row of the `Hitters` table (the columns the core pipeline reads). -/
structure Hitter where
  HittingPlayerId : ℤ
  R : Option ℚ
  HR : Option ℚ
  RBI : Option ℚ
  SB : Option ℚ
  AB : Option ℚ
  H : Option ℚ
  AVG : Option ℚ
  Position : Option String
  Status : String
  HittingTeamId : Option ℤ
  AdjustedSalary : Option ℚ
  SGCalc : Option ℚ

/-- A row of the `Pitchers` table (the columns the core pipeline reads). -/
structure Pitcher where
  PitchingPlayerId : ℤ
  W : Option ℚ
  SO : Option ℚ
  SVH : Option ℚ
  IP : Option ℚ
  ERA : Option ℚ
  WHIP : Option ℚ
  Role : Option String
  Status : String
  PitchingTeamId : Option ℤ
  AdjustedSalary : Option ℚ
  SGCalc : Option ℚ

/-- The `team_stats` dictionary built by `get_current_team_stats`. -/
structure TeamStats where
  R : ℚ
  HR : ℚ
  RBI : ℚ
  SB : ℚ
  AVG : ℚ
  W : ℚ
  K : ℚ
  ERA : ℚ
  WHIP : ℚ
  SVH : ℚ

/-- Accumulator of the hitting loop in `get_current_team_stats`
(`team_stats` hitting entries plus `total_ab` and `total_hits`). -/
structure HitAcc where
  r : ℚ
  hr : ℚ
  rbi : ℚ
  sb : ℚ
  totalAB : ℚ
  totalHits : ℚ

/-- Accumulator of the pitching loop in `get_current_team_stats`
(`team_stats` pitching entries plus `total_innings`, `total_earned_runs`,
`total_whip_product`). -/
structure PitchAcc where
  w : ℚ
  k : ℚ
  svh : ℚ
  totalInnings : ℚ
  totalEarnedRuns : ℚ
  totalWhipProduct : ℚ

/-- The `for hitter in hitters:` loop of `get_current_team_stats`
(routes.py lines 1380-1390). -/
def hittingLoop : List Hitter → HitAcc → HitAcc
  | [], acc => acc
  | h :: rest, acc =>
      hittingLoop rest
        { r := acc.r + orZero h.R
          hr := acc.hr + orZero h.HR
          rbi := acc.rbi + orZero h.RBI
          sb := acc.sb + orZero h.SB
          totalAB := acc.totalAB + orZero h.AB
          totalHits := acc.totalHits + orZero h.H }

/-- The `for pitcher in pitchers:` loop of `get_current_team_stats`
(routes.py lines 1406-1421): earned runs are back-derived per pitcher as
`(ERA * IP) / 9` and WHIP is accumulated as `whip * ip`. -/
def pitchingLoop : List Pitcher → PitchAcc → PitchAcc
  | [], acc => acc
  | p :: rest, acc =>
      pitchingLoop rest
        { w := acc.w + orZero p.W
          k := acc.k + orZero p.SO
          svh := acc.svh + orZero p.SVH
          totalInnings := acc.totalInnings + orZero p.IP
          totalEarnedRuns := acc.totalEarnedRuns + (orZero p.ERA * orZero p.IP) / 9
          totalWhipProduct := acc.totalWhipProduct + orZero p.WHIP * orZero p.IP }

/-- Embedding of `get_current_team_stats` (routes.py lines 1351-1432) as a function of the
team's rostered hitter and pitcher rows: counting stats are summed with nulls
contributing zero; `AVG = total_hits / total_ab` when `total_ab > 0` else 0;
when `total_innings > 0`, `ERA = 9 * total_earned_runs / total_innings` and
`WHIP = total_whip_product / total_innings`, both staying at their
initialization value 0 otherwise. -/
def get_current_team_stats (hitters : List Hitter) (pitchers : List Pitcher) :
    TeamStats :=
  let ha := hittingLoop hitters ⟨0, 0, 0, 0, 0, 0⟩
  let pa := pitchingLoop pitchers ⟨0, 0, 0, 0, 0, 0⟩
  { R := ha.r
    HR := ha.hr
    RBI := ha.rbi
    SB := ha.sb
    AVG := if 0 < ha.totalAB then ha.totalHits / ha.totalAB else 0
    W := pa.w
    K := pa.k
    SVH := pa.svh
    ERA := if 0 < pa.totalInnings then
             9 * pa.totalEarnedRuns / pa.totalInnings else 0
    WHIP := if 0 < pa.totalInnings then
              pa.totalWhipProduct / pa.totalInnings else 0 }

/-- The per-category threshold values read by `get_model_thresholds`. -/
structure Thresholds where
  R : ℚ
  HR : ℚ
  RBI : ℚ
  SB : ℚ
  AVG : ℚ
  W : ℚ
  K : ℚ
  ERA : ℚ
  WHIP : ℚ
  SVH : ℚ

/-- The `gaps` dictionary built by `calculate_category_gaps`. -/
structure Gaps where
  R : ℚ
  HR : ℚ
  RBI : ℚ
  SB : ℚ
  W : ℚ
  K : ℚ
  SVH : ℚ
  ERA : ℚ
  WHIP : ℚ
  AVG : ℚ

/-- Embedding of `calculate_category_gaps` (routes.py lines 1604-1621):
`max(threshold - current, 0.1)` for the seven counting categories,
`max(current - threshold, 0.1)` for ERA and WHIP,
`max(threshold - current, 0.001)` for AVG. -/
def calculate_category_gaps (team_stats : TeamStats) (thresholds : Thresholds) :
    Gaps :=
  { R := max (thresholds.R - team_stats.R) (1/10)
    HR := max (thresholds.HR - team_stats.HR) (1/10)
    RBI := max (thresholds.RBI - team_stats.RBI) (1/10)
    SB := max (thresholds.SB - team_stats.SB) (1/10)
    W := max (thresholds.W - team_stats.W) (1/10)
    K := max (thresholds.K - team_stats.K) (1/10)
    SVH := max (thresholds.SVH - team_stats.SVH) (1/10)
    ERA := max (team_stats.ERA - thresholds.ERA) (1/10)
    WHIP := max (team_stats.WHIP - thresholds.WHIP) (1/10)
    AVG := max (thresholds.AVG - team_stats.AVG) (1/1000) }

/-- The `position_multipliers` lookup dictionary inside `calculate_sg_value`
(routes.py lines 1694-1703), with the `.get(key, 1.0)` default. -/
def position_multipliers (p : String) : ℚ :=
  if p = "C" then 6/5
  else if p = "SS" then 23/20
  else if p = "2B" then 11/10
  else if p = "3B" then 21/20
  else if p = "OF" then 1
  else if p = "1B" then 1
  else if p = "RP" then 11/10
  else if p = "SP" then 1
  else 1

/-- The scarcity multiplier applied to a hitter: looked up on the `Position`
field when present; `position_multipliers.get(None, 1.0) = 1.0` when the
column is NULL. -/
def hitterMultiplier (h : Hitter) : ℚ :=
  match h.Position with
  | some p => position_multipliers p
  | none => 1

/-- The scarcity multiplier applied to a pitcher, looked up on `Role`. -/
def pitcherMultiplier (p : Pitcher) : ℚ :=
  match p.Role with
  | some r => position_multipliers r
  | none => 1

/-- The hitter branch of `calculate_sg_value` before the scarcity multiplier
(routes.py lines 1652-1669): the `sg_value` accumulation over R, HR, RBI, SB
and the AB-weighted AVG impact. -/
def hitterBaseSG (player : Hitter) (team_stats : TeamStats) (gaps : Gaps) : ℚ :=
  let s0 : ℚ := 0
  let s1 := if 0 < gaps.R then s0 + orZero player.R / gaps.R else s0
  let s2 := if 0 < gaps.HR then s1 + orZero player.HR / gaps.HR else s1
  let s3 := if 0 < gaps.RBI then s2 + orZero player.RBI / gaps.RBI else s2
  let s4 := if 0 < gaps.SB then s3 + orZero player.SB / gaps.SB else s3
  if 0 < gaps.AVG then
    let ab := orZero player.AB
    let hits := orZero player.H
    if 0 < ab then
      s4 + ((hits / ab - team_stats.AVG) * ab) / gaps.AVG
    else s4
  else s4

/-- The pitcher branch of `calculate_sg_value` before the scarcity multiplier
(routes.py lines 1670-1691): W, K (read from the `SO` column), SVH, and the
innings-weighted ERA and WHIP impacts with inverted sign. -/
def pitcherBaseSG (player : Pitcher) (team_stats : TeamStats) (gaps : Gaps) : ℚ :=
  let s0 : ℚ := 0
  let s1 := if 0 < gaps.W then s0 + orZero player.W / gaps.W else s0
  let s2 := if 0 < gaps.K then s1 + orZero player.SO / gaps.K else s1
  let s3 := if 0 < gaps.SVH then s2 + orZero player.SVH / gaps.SVH else s2
  let s4 := if 0 < gaps.ERA then
      (if 0 < orZero player.IP then
        s3 + ((team_stats.ERA - orZero player.ERA) * orZero player.IP) / gaps.ERA
      else s3)
    else s3
  if 0 < gaps.WHIP then
    (if 0 < orZero player.IP then
      s4 + ((team_stats.WHIP - orZero player.WHIP) * orZero player.IP) / gaps.WHIP
    else s4)
  else s4

/-- The `player` argument of `calculate_sg_value`, discriminated by the
source's `is_hitter` flag. -/
inductive Player where
  | hitter (h : Hitter)
  | pitcher (p : Pitcher)

/-- Embedding of `calculate_sg_value` (routes.py lines 1647-1710): the per-category
accumulation followed by the position-scarcity multiplier. -/
def calculate_sg_value (player : Player) (team_stats : TeamStats) (gaps : Gaps) :
    ℚ :=
  match player with
  | .hitter h => hitterBaseSG h team_stats gaps * hitterMultiplier h
  | .pitcher p => pitcherBaseSG p team_stats gaps * pitcherMultiplier p

/-- Embedding of `get_available_hitters` (routes.py lines 1623-1633): hitters whose
`HittingTeamId` is NULL or differs from the requesting team, with
`Status = 'FA'`, applied to the `Hitters` table as a list of rows. -/
def get_available_hitters (team_id : ℤ) (table : List Hitter) : List Hitter :=
  table.filter (fun h =>
    (match h.HittingTeamId with
     | none => true
     | some t => decide (t ≠ team_id)) && (h.Status == "FA"))

/-- Embedding of `get_available_pitchers` (routes.py lines 1635-1645). -/
def get_available_pitchers (team_id : ℤ) (table : List Pitcher) : List Pitcher :=
  table.filter (fun p =>
    (match p.PitchingTeamId with
     | none => true
     | some t => decide (t ≠ team_id)) && (p.Status == "FA"))

/-- Modelled from the spec: "Free Agent (FA): a player not currently assigned
to any team's roster" — a hitter with no team-assignment reference. -/
def specFreeAgentHitter (h : Hitter) : Prop := h.HittingTeamId = none

/-- The `HITTER_POSITIONS` list (routes.py lines 551-556). -/
def HITTER_POSITIONS : List String :=
  ["C", "FirstBase", "SecondBase", "ShortStop", "ThirdBase",
   "MiddleInfielder", "CornerInfielder", "Outfield1", "Outfield2",
   "Outfield3", "Outfield4", "Outfield5", "Utility",
   "Bench1", "Bench2", "Bench3"]

/-- The `PITCHER_POSITIONS` list (routes.py lines 559-563). -/
def PITCHER_POSITIONS : List String :=
  ["Pitcher1", "Pitcher2", "Pitcher3", "Pitcher4", "Pitcher5",
   "Pitcher6", "Pitcher7", "Pitcher8", "Pitcher9",
   "Bench1", "Bench2", "Bench3"]

/-- The `POSITION_MAPPING` dictionary (routes.py lines 566-583) as an
association list. -/
def POSITION_MAPPING_ENTRIES : List (String × List String) :=
  [("C", ["C"]),
   ("FirstBase", ["1B"]),
   ("SecondBase", ["2B"]),
   ("ShortStop", ["SS"]),
   ("ThirdBase", ["3B"]),
   ("MiddleInfielder", ["2B", "SS"]),
   ("CornerInfielder", ["1B", "3B"]),
   ("Outfield1", ["OF"]),
   ("Outfield2", ["OF"]),
   ("Outfield3", ["OF"]),
   ("Outfield4", ["OF"]),
   ("Outfield5", ["OF"]),
   ("Utility", ["C", "1B", "2B", "SS", "3B", "OF", "DH"]),
   ("Bench1", ["C", "1B", "2B", "SS", "3B", "OF", "DH"]),
   ("Bench2", ["C", "1B", "2B", "SS", "3B", "OF", "DH"]),
   ("Bench3", ["C", "1B", "2B", "SS", "3B", "OF", "DH"])]

/-- The lookup `POSITION_MAPPING.get(pos, [])`: dictionary access with default `[]`. -/
def POSITION_MAPPING (s : String) : List String :=
  ((POSITION_MAPPING_ENTRIES.find? (fun kv => kv.1 == s)).map
    (fun kv => kv.2)).getD []

/-- A scored candidate row as the optimizer sees it: player id, raw
`Position` string, `AdjustedSalary` and `SGCalc` (missing keys read through
`.get(_, 0)` are already resolved to 0 here). -/
structure Candidate where
  pid : ℤ
  pos : Option String
  adjustedSalary : ℚ
  sg : ℚ

/-- Variable construction of `generate_optimal_lineup`'s single-type branch
(routes.py lines 2319-2330): a binary variable exists for (candidate, slot)
iff `lineup_type == 'pitching'` or the candidate's whole `Position` string is
an element of `POSITION_MAPPING.get(position, [])` (a NULL position is in no
list). The both-scope hitter/pitcher loops (lines 2067-2085) perform the same
membership test. -/
def hasVar (isPitching : Bool) (c : Candidate) (slot : String) : Bool :=
  isPitching ||
    (match c.pos with
     | some p => decide (p ∈ POSITION_MAPPING slot)
     | none => false)

/-- Split a character list at commas (`"2B,SS" -> ["2B", "SS"]`). -/
def splitComma : List Char → List (List Char)
  | [] => [[]]
  | c :: cs =>
      match splitComma cs with
      | [] => if c = ',' then [[], []] else [[c]]
      | w :: ws => if c = ',' then [] :: w :: ws else (c :: w) :: ws

/-- A candidate's comma-separated raw position list, as split by the
roster-update endpoint (`player['Position'].split(',')`, routes.py line 645). -/
def splitPositions (p : String) : List String :=
  (splitComma p.toList).map (fun l => String.mk l)

/-- Whether a solver variable is present and set to 1: the pair has a
variable and the 0/1 assignment `alpha` (keyed like `player_vars` by player
id and slot) gives it value 1. -/
def varOn (isPitching : Bool) (alpha : ℤ → String → Bool) (c : Candidate)
    (slot : String) : Bool :=
  hasVar isPitching c slot && alpha c.pid slot

/-- The extraction loop of `generate_optimal_lineup` (routes.py lines
2363-2387): for each player and each required position whose variable exists
and has value 1, an entry is appended. -/
def optimal_lineup (isPitching : Bool) (cs : List Candidate)
    (slots : List String) (alpha : ℤ → String → Bool) :
    List (Candidate × String) :=
  match cs with
  | [] => []
  | c :: rest =>
      ((slots.filter (fun s => varOn isPitching alpha c s)).map (fun s => (c, s)))
        ++ optimal_lineup isPitching rest slots alpha

/-- The `total_cost` accumulated during extraction. -/
def total_cost (isPitching : Bool) (cs : List Candidate) (slots : List String)
    (alpha : ℤ → String → Bool) : ℚ :=
  ((optimal_lineup isPitching cs slots alpha).map
    (fun e => e.1.adjustedSalary)).sum

/-- Left-hand side of Constraint 1 (budget, routes.py lines 2336-2338): the
lpSum of `var * AdjustedSalary` over all player/position pairs, absent
variables contributing 0. -/
def budgetLHS (isPitching : Bool) (cs : List Candidate) (slots : List String)
    (alpha : ℤ → String → Bool) : ℚ :=
  (cs.map (fun c =>
    ((slots.map (fun s =>
      if varOn isPitching alpha c s then c.adjustedSalary else 0)).sum))).sum

/-- Left-hand side of Constraint 2 for one position (routes.py lines
2340-2343): the lpSum of this position's variables over all players. -/
def slotLHS (isPitching : Bool) (cs : List Candidate)
    (alpha : ℤ → String → Bool) (slot : String) : ℕ :=
  (cs.map (fun c => if varOn isPitching alpha c slot then 1 else 0)).sum

/-- Left-hand side of Constraint 3 for one player (routes.py lines
2345-2349): the lpSum of this player's variables over all positions. -/
def playerLHS (isPitching : Bool) (slots : List String)
    (alpha : ℤ → String → Bool) (c : Candidate) : ℕ :=
  (slots.map (fun s => if varOn isPitching alpha c s then 1 else 0)).sum

/-- The endpoint's response shape after solving. -/
inductive LineupResponse where
  | err (message : String) (required_positions : List String)
  | ok (lineup : List (Candidate × String)) (cost : ℚ)

/-- Post-solve handling of `generate_optimal_lineup` (routes.py lines
2356-2387): any status other than `'Optimal'` yields an HTTP 400 error
response carrying the status and the required positions; only `'Optimal'`
proceeds to extraction. -/
def handle_solve_status (status : String) (isPitching : Bool)
    (cs : List Candidate) (slots : List String)
    (alpha : ℤ → String → Bool) : LineupResponse :=
  if status ≠ "Optimal" then
    .err ("No optimal solution found. Status: " ++ status) slots
  else
    .ok (optimal_lineup isPitching cs slots alpha)
       (total_cost isPitching cs slots alpha)

/-- The optimization request body of `generate_optimal_lineup`; a field is
`none` when missing from the posted JSON. -/
structure LineupRequest where
  team_id : Option ℤ
  model_id : Option ℤ
  budget : Option ℚ
  lineup_type : Option String
  bench_positions : Option ℤ

/-- Python's `str.lower()`, modelled characterwise. -/
def strToLower (s : String) : String := String.mk (s.toList.map Char.toLower)

/-- Whether the second character list is a leading segment of the first
argument list order: `leadsWith pre cs` is true iff `cs` starts with `pre`. -/
def leadsWith : List Char → List Char → Bool
  | [], _ => true
  | _ :: _, [] => false
  | p :: ps, c :: cs => (p == c) && leadsWith ps cs

/-- Python's `str.startswith(pre)`, modelled on character lists. -/
def strStarts (s pre : String) : Bool := leadsWith pre.toList s.toList

/-- The integer value of a decimal digit character. -/
def digitVal (c : Char) : ℤ := (c.toNat : ℤ) - 48

/-- Python's `int(...)` on a nonnegative decimal digit string, modelled on
character lists (only ever applied to the digits of bench slot names). -/
def charsToInt (cs : List Char) : ℤ :=
  cs.foldl (fun acc c => acc * 10 + digitVal c) 0

/-- The pre-computation request validation of `generate_optimal_lineup`
(routes.py lines 1951-1969): presence of the five required fields, then
membership of the lowercased `lineup_type` in
`['hitting', 'pitching', 'both']`. No other request validation exists before
scoring, candidate retrieval or solving. -/
def validate_lineup_request (r : LineupRequest) : Option String :=
  if r.team_id.isNone then some "Missing required field: team_id"
  else if r.model_id.isNone then some "Missing required field: model_id"
  else if r.budget.isNone then some "Missing required field: budget"
  else if r.lineup_type.isNone then some "Missing required field: lineup_type"
  else if r.bench_positions.isNone then
    some "Missing required field: bench_positions"
  else
    let lt := strToLower (r.lineup_type.getD "")
    if lt = "hitting" ∨ lt = "pitching" ∨ lt = "both" then none
    else some "lineup_type must be either hitting, pitching, or both"

/-- The both-scope bench split (routes.py lines 1984-1986):
`TOTAL_BENCH_POSITIONS = 3` is hardcoded and the remainder after the hitter
quota goes to pitchers, with no range check. -/
def pitcher_bench_quota (bench_positions : ℤ) : ℤ := 3 - bench_positions

/-- The bench-cap filter applied when collecting required positions
(routes.py lines 1995-2024): a position is kept unless it is a bench slot
whose index `int(position[5:])` exceeds the quota. -/
def bench_filter (positions : List String) (quota : ℤ) : List String :=
  positions.filter (fun p =>
    !strStarts p "Bench" || decide (charsToInt (p.toList.drop 5) ≤ quota))

/-- Round half to even at integer precision, modelling Python's `round`. -/
def roundHalfEven (q : ℚ) : ℤ :=
  let f := ⌊q⌋
  if q - f < 1/2 then f
  else if 1/2 < q - f then f + 1
  else if 2 ∣ f then f else f + 1

/-- Python's `round(q, n)`: round half to even at `n` decimal places. -/
def roundTo (n : ℕ) (q : ℚ) : ℚ := (roundHalfEven (q * 10 ^ n) : ℚ) / 10 ^ n

/-- The AVG computed by the thin endpoint `get_team_hitting_stats`
(routes.py lines 1040-1076): the unweighted mean of the stored per-hitter
`AVG` column over hitters where it is non-null, rounded to 3 decimal places;
0 when the roster is empty or no hitter has a stored AVG. -/
def get_team_hitting_stats_AVG (hitters : List Hitter) : ℚ :=
  if hitters.isEmpty then 0
  else
    let vals := hitters.filterMap (fun h => h.AVG)
    roundTo 3 (if 0 < vals.length then vals.sum / vals.length else 0)

/-- The ERA computed by the thin endpoint `get_team_pitching_stats`
(routes.py lines 1120-1161): the unweighted mean of the stored per-pitcher
`ERA` column over pitchers where it is non-null, rounded to 2 decimal places;
0 when the roster is empty or no pitcher has a stored ERA. -/
def get_team_pitching_stats_ERA (pitchers : List Pitcher) : ℚ :=
  if pitchers.isEmpty then 0
  else
    let vals := pitchers.filterMap (fun p => p.ERA)
    roundTo 2 (if 0 < vals.length then vals.sum / vals.length else 0)

/-- The WHIP computed by `get_team_pitching_stats`, rounded to 3 decimals. -/
def get_team_pitching_stats_WHIP (pitchers : List Pitcher) : ℚ :=
  if pitchers.isEmpty then 0
  else
    let vals := pitchers.filterMap (fun p => p.WHIP)
    roundTo 3 (if 0 < vals.length then vals.sum / vals.length else 0)

/-- A pitcher row carrying only an ERA and an IP value, as used in the
aggregation examples. -/
def mkPitcher (era ip : Option ℚ) : Pitcher :=
  ⟨0, none, none, none, ip, era, none, none, "FA", none, none, none⟩

/-- A hitter row for concrete examples. -/
def mkHitter (r hr rbi sb ab h avg : Option ℚ) (pos : Option String) : Hitter :=
  ⟨0, r, hr, rbi, sb, ab, h, avg, pos, "FA", none, none, none⟩

lemma hittingLoop_eq (hs : List Hitter) (acc : HitAcc) :
    hittingLoop hs acc =
      ⟨acc.r + (hs.map fun h => orZero h.R).sum,
       acc.hr + (hs.map fun h => orZero h.HR).sum,
       acc.rbi + (hs.map fun h => orZero h.RBI).sum,
       acc.sb + (hs.map fun h => orZero h.SB).sum,
       acc.totalAB + (hs.map fun h => orZero h.AB).sum,
       acc.totalHits + (hs.map fun h => orZero h.H).sum⟩ := by
  induction hs generalizing acc with
  | nil => simp [hittingLoop]
  | cons h rest ih =>
      simp only [hittingLoop, ih, List.map_cons, List.sum_cons, HitAcc.mk.injEq]
      refine ⟨?_, ?_, ?_, ?_, ?_, ?_⟩ <;> ring

lemma pitchingLoop_eq (ps : List Pitcher) (acc : PitchAcc) :
    pitchingLoop ps acc =
      ⟨acc.w + (ps.map fun p => orZero p.W).sum,
       acc.k + (ps.map fun p => orZero p.SO).sum,
       acc.svh + (ps.map fun p => orZero p.SVH).sum,
       acc.totalInnings + (ps.map fun p => orZero p.IP).sum,
       acc.totalEarnedRuns + (ps.map fun p => orZero p.ERA * orZero p.IP / 9).sum,
       acc.totalWhipProduct + (ps.map fun p => orZero p.WHIP * orZero p.IP).sum⟩ := by
  induction ps generalizing acc with
  | nil => simp [pitchingLoop]
  | cons p rest ih =>
      simp only [pitchingLoop, ih, List.map_cons, List.sum_cons, PitchAcc.mk.injEq]
      refine ⟨?_, ?_, ?_, ?_, ?_, ?_⟩ <;> ring

/-- C1: `get_current_team_stats` sums each counting stat with nulls as zero,
reconstructs AVG as total hits over total at-bats (0 when there are none),
derives ERA from back-calculated earned runs `(ERA*IP)/9` as
`9 * Σ earned_runs / Σ IP`, and WHIP as `Σ (WHIP*IP) / Σ IP` (both 0 when
total innings is zero); for the two-pitcher roster (ERA 3, IP 100) and
(ERA 5, IP 50) the aggregate ERA is 550/150, not the naive mean 4. -/
theorem C1_get_current_team_stats_weighted_aggregation :
    (∀ (hs : List Hitter) (ps : List Pitcher),
      (get_current_team_stats hs ps).R = (hs.map fun h => orZero h.R).sum ∧
      (get_current_team_stats hs ps).HR = (hs.map fun h => orZero h.HR).sum ∧
      (get_current_team_stats hs ps).RBI = (hs.map fun h => orZero h.RBI).sum ∧
      (get_current_team_stats hs ps).SB = (hs.map fun h => orZero h.SB).sum ∧
      (get_current_team_stats hs ps).W = (ps.map fun p => orZero p.W).sum ∧
      (get_current_team_stats hs ps).K = (ps.map fun p => orZero p.SO).sum ∧
      (get_current_team_stats hs ps).SVH = (ps.map fun p => orZero p.SVH).sum ∧
      (0 < (hs.map fun h => orZero h.AB).sum →
        (get_current_team_stats hs ps).AVG =
          (hs.map fun h => orZero h.H).sum / (hs.map fun h => orZero h.AB).sum) ∧
      ((hs.map fun h => orZero h.AB).sum = 0 →
        (get_current_team_stats hs ps).AVG = 0) ∧
      (0 < (ps.map fun p => orZero p.IP).sum →
        (get_current_team_stats hs ps).ERA =
          9 * (ps.map fun p => orZero p.ERA * orZero p.IP / 9).sum /
            (ps.map fun p => orZero p.IP).sum ∧
        (get_current_team_stats hs ps).WHIP =
          (ps.map fun p => orZero p.WHIP * orZero p.IP).sum /
            (ps.map fun p => orZero p.IP).sum) ∧
      ((ps.map fun p => orZero p.IP).sum = 0 →
        (get_current_team_stats hs ps).ERA = 0 ∧
        (get_current_team_stats hs ps).WHIP = 0)) ∧
    ((get_current_team_stats []
        [mkPitcher (some 3) (some 100), mkPitcher (some 5) (some 50)]).ERA
      = 550 / 150 ∧ (550 / 150 : ℚ) ≠ 4) := by
  constructor
  · intro hs ps
    simp only [get_current_team_stats, hittingLoop_eq, pitchingLoop_eq, zero_add]
    refine ⟨trivial, trivial, trivial, trivial, trivial, trivial, trivial,
      ?_, ?_, ?_, ?_⟩
    · intro hpos; rw [if_pos hpos]
    · intro hzero; rw [hzero, if_neg (lt_irrefl 0)]
    · intro hpos; rw [if_pos hpos, if_pos hpos]; exact ⟨rfl, rfl⟩
    · intro hzero; rw [hzero, if_neg (lt_irrefl 0), if_neg (lt_irrefl 0)]
      exact ⟨rfl, rfl⟩
  · constructor
    · norm_num [get_current_team_stats, hittingLoop_eq, pitchingLoop_eq,
        mkPitcher, orZero]
    · norm_num

/-- Witness for C1: a concrete roster where total at-bats and total innings
are positive, evaluated through the theorem. -/
theorem C1_witness :
    (0 : ℚ) <
      ([mkHitter (some 10) (some 2) (some 5) (some 1) (some 100) (some 30)
          none none].map fun h => orZero h.AB).sum ∧
    (get_current_team_stats
      [mkHitter (some 10) (some 2) (some 5) (some 1) (some 100) (some 30)
          none none]
      [mkPitcher (some 3) (some 100)]).AVG = 30 / 100 := by
  have hab : (0 : ℚ) <
      ([mkHitter (some 10) (some 2) (some 5) (some 1) (some 100) (some 30)
          none none].map fun h => orZero h.AB).sum := by
    norm_num [mkHitter, orZero]
  refine ⟨hab, ?_⟩
  have h := (C1_get_current_team_stats_weighted_aggregation.1
      [mkHitter (some 10) (some 2) (some 5) (some 1) (some 100) (some 30)
          none none]
      [mkPitcher (some 3) (some 100)]).2.2.2.2.2.2.2.1 hab
  rw [h]
  norm_num [mkHitter, orZero]

/-- C2: `calculate_category_gaps` computes `max(threshold - current, 0.1)`
for the seven counting categories, `max(current - threshold, 0.1)` for ERA
and WHIP, and `max(threshold - current, 0.001)` for AVG; every gap is at
least its floor, and a higher-is-better category already at or past its
threshold gets exactly the floor. -/
theorem C2_calculate_category_gaps_floors
    (team_stats : TeamStats) (thresholds : Thresholds) :
    (calculate_category_gaps team_stats thresholds).R
        = max (thresholds.R - team_stats.R) (1/10) ∧
    (calculate_category_gaps team_stats thresholds).HR
        = max (thresholds.HR - team_stats.HR) (1/10) ∧
    (calculate_category_gaps team_stats thresholds).RBI
        = max (thresholds.RBI - team_stats.RBI) (1/10) ∧
    (calculate_category_gaps team_stats thresholds).SB
        = max (thresholds.SB - team_stats.SB) (1/10) ∧
    (calculate_category_gaps team_stats thresholds).W
        = max (thresholds.W - team_stats.W) (1/10) ∧
    (calculate_category_gaps team_stats thresholds).K
        = max (thresholds.K - team_stats.K) (1/10) ∧
    (calculate_category_gaps team_stats thresholds).SVH
        = max (thresholds.SVH - team_stats.SVH) (1/10) ∧
    (calculate_category_gaps team_stats thresholds).ERA
        = max (team_stats.ERA - thresholds.ERA) (1/10) ∧
    (calculate_category_gaps team_stats thresholds).WHIP
        = max (team_stats.WHIP - thresholds.WHIP) (1/10) ∧
    (calculate_category_gaps team_stats thresholds).AVG
        = max (thresholds.AVG - team_stats.AVG) (1/1000) ∧
    (1/10 : ℚ) ≤ (calculate_category_gaps team_stats thresholds).R ∧
    (1/10 : ℚ) ≤ (calculate_category_gaps team_stats thresholds).HR ∧
    (1/10 : ℚ) ≤ (calculate_category_gaps team_stats thresholds).RBI ∧
    (1/10 : ℚ) ≤ (calculate_category_gaps team_stats thresholds).SB ∧
    (1/10 : ℚ) ≤ (calculate_category_gaps team_stats thresholds).W ∧
    (1/10 : ℚ) ≤ (calculate_category_gaps team_stats thresholds).K ∧
    (1/10 : ℚ) ≤ (calculate_category_gaps team_stats thresholds).SVH ∧
    (1/10 : ℚ) ≤ (calculate_category_gaps team_stats thresholds).ERA ∧
    (1/10 : ℚ) ≤ (calculate_category_gaps team_stats thresholds).WHIP ∧
    (1/1000 : ℚ) ≤ (calculate_category_gaps team_stats thresholds).AVG ∧
    (thresholds.R ≤ team_stats.R →
      (calculate_category_gaps team_stats thresholds).R = 1/10) ∧
    (thresholds.HR ≤ team_stats.HR →
      (calculate_category_gaps team_stats thresholds).HR = 1/10) ∧
    (thresholds.RBI ≤ team_stats.RBI →
      (calculate_category_gaps team_stats thresholds).RBI = 1/10) ∧
    (thresholds.SB ≤ team_stats.SB →
      (calculate_category_gaps team_stats thresholds).SB = 1/10) ∧
    (thresholds.W ≤ team_stats.W →
      (calculate_category_gaps team_stats thresholds).W = 1/10) ∧
    (thresholds.K ≤ team_stats.K →
      (calculate_category_gaps team_stats thresholds).K = 1/10) ∧
    (thresholds.SVH ≤ team_stats.SVH →
      (calculate_category_gaps team_stats thresholds).SVH = 1/10) ∧
    (thresholds.AVG ≤ team_stats.AVG →
      (calculate_category_gaps team_stats thresholds).AVG = 1/1000) := by
  have floorTen : ∀ a b : ℚ, b ≤ a → max (b - a) (1/10) = 1/10 := by
    intro a b hba
    exact max_eq_right (by linarith)
  have floorK : ∀ a b : ℚ, b ≤ a → max (b - a) (1/1000) = 1/1000 := by
    intro a b hba
    exact max_eq_right (by linarith)
  refine ⟨rfl, rfl, rfl, rfl, rfl, rfl, rfl, rfl, rfl, rfl,
    le_max_right _ _, le_max_right _ _, le_max_right _ _, le_max_right _ _,
    le_max_right _ _, le_max_right _ _, le_max_right _ _, le_max_right _ _,
    le_max_right _ _, le_max_right _ _,
    fun h => floorTen _ _ h, fun h => floorTen _ _ h, fun h => floorTen _ _ h,
    fun h => floorTen _ _ h, fun h => floorTen _ _ h, fun h => floorTen _ _ h,
    fun h => floorTen _ _ h, fun h => floorK _ _ h⟩

/-- Witness for C2: a team already past its runs threshold gets exactly the
0.1 floor gap. -/
theorem C2_witness :
    let ts : TeamStats := ⟨900, 0, 0, 0, 0, 0, 0, 0, 0, 0⟩
    let th : Thresholds := ⟨800, 0, 0, 0, 0, 0, 0, 0, 0, 0⟩
    th.R ≤ ts.R ∧ (calculate_category_gaps ts th).R = 1/10 := by
  intro ts th
  have hle : th.R ≤ ts.R := by norm_num
  exact ⟨hle,
    (C2_calculate_category_gaps_floors ts th).2.2.2.2.2.2.2.2.2.2.2.2.2.2.2.2.2.2.2.2.1
      hle⟩

lemma orZero_some (x : ℚ) : orZero (some x) = x := rfl

lemma position_multipliers_pos (p : String) : 0 < position_multipliers p := by
  unfold position_multipliers
  split_ifs <;> norm_num

lemma hitterMultiplier_pos (h : Hitter) : 0 < hitterMultiplier h := by
  unfold hitterMultiplier
  cases h.Position with
  | none => norm_num
  | some p => exact position_multipliers_pos p

lemma pitcherMultiplier_pos (p : Pitcher) : 0 < pitcherMultiplier p := by
  unfold pitcherMultiplier
  cases p.Role with
  | none => norm_num
  | some r => exact position_multipliers_pos r

lemma hitterBaseSG_closed (h : Hitter) (t : TeamStats) (g : Gaps)
    (hR : 0 < g.R) (hHR : 0 < g.HR) (hRBI : 0 < g.RBI) (hSB : 0 < g.SB)
    (hAVG : 0 < g.AVG) :
    hitterBaseSG h t g =
      orZero h.R / g.R + orZero h.HR / g.HR + orZero h.RBI / g.RBI +
      orZero h.SB / g.SB +
      (if 0 < orZero h.AB then
        ((orZero h.H / orZero h.AB - t.AVG) * orZero h.AB) / g.AVG
      else 0) := by
  simp only [hitterBaseSG]
  rw [if_pos hR, if_pos hHR, if_pos hRBI, if_pos hSB, if_pos hAVG]
  split_ifs with hab
  · ring
  · ring

lemma pitcherBaseSG_closed (p : Pitcher) (t : TeamStats) (g : Gaps)
    (hW : 0 < g.W) (hK : 0 < g.K) (hSVH : 0 < g.SVH) (hERA : 0 < g.ERA)
    (hWHIP : 0 < g.WHIP) :
    pitcherBaseSG p t g =
      orZero p.W / g.W + orZero p.SO / g.K + orZero p.SVH / g.SVH +
      (if 0 < orZero p.IP then
        ((t.ERA - orZero p.ERA) * orZero p.IP) / g.ERA
      else 0) +
      (if 0 < orZero p.IP then
        ((t.WHIP - orZero p.WHIP) * orZero p.IP) / g.WHIP
      else 0) := by
  simp only [pitcherBaseSG]
  rw [if_pos hW, if_pos hK, if_pos hSVH, if_pos hERA, if_pos hWHIP]
  split_ifs with hip
  · ring
  · ring

lemma sg_hitter_lt_of_base_lt (h1 h2 : Hitter) (t : TeamStats) (g : Gaps)
    (hpos : h1.Position = h2.Position)
    (hb : hitterBaseSG h1 t g < hitterBaseSG h2 t g) :
    calculate_sg_value (.hitter h1) t g < calculate_sg_value (.hitter h2) t g := by
  simp only [calculate_sg_value]
  have hm : hitterMultiplier h1 = hitterMultiplier h2 := by
    unfold hitterMultiplier; rw [hpos]
  rw [hm]
  exact mul_lt_mul_of_pos_right hb (hitterMultiplier_pos h2)

lemma sg_pitcher_lt_of_base_lt (p1 p2 : Pitcher) (t : TeamStats) (g : Gaps)
    (hrole : p1.Role = p2.Role)
    (hb : pitcherBaseSG p1 t g < pitcherBaseSG p2 t g) :
    calculate_sg_value (.pitcher p1) t g < calculate_sg_value (.pitcher p2) t g := by
  simp only [calculate_sg_value]
  have hm : pitcherMultiplier p1 = pitcherMultiplier p2 := by
    unfold pitcherMultiplier; rw [hrole]
  rw [hm]
  exact mul_lt_mul_of_pos_right hb (pitcherMultiplier_pos p2)

/-- The scenario candidate of C3: contributes R 80, HR 25, RBI 70, SB 5, has
no at-bats, and plays OF (scarcity multiplier 1.0). -/
def c3cand : Hitter :=
  mkHitter (some 80) (some 25) (some 70) (some 5) none none none (some "OF")

/-- The scenario gap set of C3: R 150, HR 50, RBI 120, SB 20, the remaining
categories at arbitrary positive values. -/
def c3gaps : Gaps := ⟨150, 50, 120, 20, 1, 1, 1, 1, 1, 1/1000⟩

/-- An arbitrary team-stat context for the C3 scenario. -/
def c3team : TeamStats := ⟨0, 0, 0, 0, 0, 0, 0, 0, 0, 0⟩

/-- C3: with all gaps positive, the hitter branch of `calculate_sg_value`
totals `candidate_value / gap` over R, HR, RBI, SB (nulls contributing zero)
plus the at-bat-guarded AVG impact, and only then applies the scarcity
multiplier; the scenario candidate with gaps {R:150, HR:50, RBI:120, SB:20},
no at-bats and multiplier 1.0 scores 80/150 + 25/50 + 70/120 + 5/20 = 28/15. -/
theorem C3_calculate_sg_value_hitter_accumulation :
    (∀ (h : Hitter) (t : TeamStats) (g : Gaps),
      0 < g.R → 0 < g.HR → 0 < g.RBI → 0 < g.SB → 0 < g.AVG →
      calculate_sg_value (.hitter h) t g =
        (orZero h.R / g.R + orZero h.HR / g.HR + orZero h.RBI / g.RBI +
         orZero h.SB / g.SB +
         (if 0 < orZero h.AB then
            ((orZero h.H / orZero h.AB - t.AVG) * orZero h.AB) / g.AVG
          else 0)) * hitterMultiplier h) ∧
    calculate_sg_value (.hitter c3cand) c3team c3gaps = 28/15 ∧
    (80/150 + 25/50 + 70/120 + 5/20 : ℚ) = 28/15 := by
  refine ⟨?_, ?_, by norm_num⟩
  · intro h t g hR hHR hRBI hSB hAVG
    simp only [calculate_sg_value]
    rw [hitterBaseSG_closed h t g hR hHR hRBI hSB hAVG]
  · have hOF : hitterMultiplier c3cand = 1 := by decide
    simp only [calculate_sg_value, hOF, mul_one]
    norm_num [hitterBaseSG, c3cand, c3gaps, c3team, mkHitter, orZero]

/-- Witness for C3: the general accumulation identity applied to the
scenario input, with every gap-positivity hypothesis discharged. -/
theorem C3_witness :
    calculate_sg_value (.hitter c3cand) c3team c3gaps =
      (orZero c3cand.R / c3gaps.R + orZero c3cand.HR / c3gaps.HR +
       orZero c3cand.RBI / c3gaps.RBI + orZero c3cand.SB / c3gaps.SB +
       (if 0 < orZero c3cand.AB then
          ((orZero c3cand.H / orZero c3cand.AB - c3team.AVG) *
            orZero c3cand.AB) / c3gaps.AVG
        else 0)) * hitterMultiplier c3cand :=
  C3_calculate_sg_value_hitter_accumulation.1 c3cand c3team c3gaps
    (by norm_num [c3gaps]) (by norm_num [c3gaps]) (by norm_num [c3gaps])
    (by norm_num [c3gaps]) (by norm_num [c3gaps])

/-- The C7 context: a team with aggregate ERA 5 and WHIP 2, every gap 1. -/
def c7team : TeamStats := ⟨0, 0, 0, 0, 0, 0, 0, 5, 2, 0⟩

/-- All-ones gap set for C7 (every gap positive). -/
def c7gaps : Gaps := ⟨1, 1, 1, 1, 1, 1, 1, 1, 1, 1⟩

/-- A pitcher with 10 innings, WHIP 1 and the given ERA. -/
def c7pitcher (e : ℚ) : Pitcher :=
  ⟨0, none, none, none, some 10, some e, some 1, none, "FA", none, none, none⟩

/-- Counterexample to C7 as stated: ERA is a category, its gap is positive
(1), and raising the candidate's ERA value from 3 to 4 strictly DECREASES
the standard-gain score (lower is better for ERA, the scorer subtracts). -/
theorem C7_counterexample :
    (3 : ℚ) < 4 ∧ 0 < c7gaps.ERA ∧
    calculate_sg_value (.pitcher (c7pitcher 4)) c7team c7gaps <
      calculate_sg_value (.pitcher (c7pitcher 3)) c7team c7gaps := by
  refine ⟨by norm_num, by norm_num [c7gaps], ?_⟩
  norm_num [calculate_sg_value, pitcherBaseSG, pitcherMultiplier,
    c7pitcher, c7team, c7gaps, orZero]

/-- C7 amended: with the gap set positive (as the gap calculator guarantees),
increasing a candidate's value in a counting category (R/HR/RBI/SB for
hitters, W/K-via-SO/SVH for pitchers) strictly increases the score, and so
does increasing hits at fixed positive at-bats; for the lower-is-better ERA
and WHIP categories with positive innings, increasing the candidate's value
strictly DECREASES the score. -/
theorem C7_amended_monotonicity :
    (∀ (h : Hitter) (t : TeamStats) (g : Gaps) (v v' : ℚ),
      0 < g.R → 0 < g.HR → 0 < g.RBI → 0 < g.SB → 0 < g.AVG → v < v' →
      calculate_sg_value (.hitter {h with R := some v}) t g <
        calculate_sg_value (.hitter {h with R := some v'}) t g) ∧
    (∀ (h : Hitter) (t : TeamStats) (g : Gaps) (v v' : ℚ),
      0 < g.R → 0 < g.HR → 0 < g.RBI → 0 < g.SB → 0 < g.AVG → v < v' →
      calculate_sg_value (.hitter {h with HR := some v}) t g <
        calculate_sg_value (.hitter {h with HR := some v'}) t g) ∧
    (∀ (h : Hitter) (t : TeamStats) (g : Gaps) (v v' : ℚ),
      0 < g.R → 0 < g.HR → 0 < g.RBI → 0 < g.SB → 0 < g.AVG → v < v' →
      calculate_sg_value (.hitter {h with RBI := some v}) t g <
        calculate_sg_value (.hitter {h with RBI := some v'}) t g) ∧
    (∀ (h : Hitter) (t : TeamStats) (g : Gaps) (v v' : ℚ),
      0 < g.R → 0 < g.HR → 0 < g.RBI → 0 < g.SB → 0 < g.AVG → v < v' →
      calculate_sg_value (.hitter {h with SB := some v}) t g <
        calculate_sg_value (.hitter {h with SB := some v'}) t g) ∧
    (∀ (h : Hitter) (t : TeamStats) (g : Gaps) (v v' : ℚ),
      0 < g.R → 0 < g.HR → 0 < g.RBI → 0 < g.SB → 0 < g.AVG →
      0 < orZero h.AB → v < v' →
      calculate_sg_value (.hitter {h with H := some v}) t g <
        calculate_sg_value (.hitter {h with H := some v'}) t g) ∧
    (∀ (p : Pitcher) (t : TeamStats) (g : Gaps) (v v' : ℚ),
      0 < g.W → 0 < g.K → 0 < g.SVH → 0 < g.ERA → 0 < g.WHIP → v < v' →
      calculate_sg_value (.pitcher {p with W := some v}) t g <
        calculate_sg_value (.pitcher {p with W := some v'}) t g) ∧
    (∀ (p : Pitcher) (t : TeamStats) (g : Gaps) (v v' : ℚ),
      0 < g.W → 0 < g.K → 0 < g.SVH → 0 < g.ERA → 0 < g.WHIP → v < v' →
      calculate_sg_value (.pitcher {p with SO := some v}) t g <
        calculate_sg_value (.pitcher {p with SO := some v'}) t g) ∧
    (∀ (p : Pitcher) (t : TeamStats) (g : Gaps) (v v' : ℚ),
      0 < g.W → 0 < g.K → 0 < g.SVH → 0 < g.ERA → 0 < g.WHIP → v < v' →
      calculate_sg_value (.pitcher {p with SVH := some v}) t g <
        calculate_sg_value (.pitcher {p with SVH := some v'}) t g) ∧
    (∀ (p : Pitcher) (t : TeamStats) (g : Gaps) (v v' : ℚ),
      0 < g.W → 0 < g.K → 0 < g.SVH → 0 < g.ERA → 0 < g.WHIP →
      0 < orZero p.IP → v < v' →
      calculate_sg_value (.pitcher {p with ERA := some v'}) t g <
        calculate_sg_value (.pitcher {p with ERA := some v}) t g) ∧
    (∀ (p : Pitcher) (t : TeamStats) (g : Gaps) (v v' : ℚ),
      0 < g.W → 0 < g.K → 0 < g.SVH → 0 < g.ERA → 0 < g.WHIP →
      0 < orZero p.IP → v < v' →
      calculate_sg_value (.pitcher {p with WHIP := some v'}) t g <
        calculate_sg_value (.pitcher {p with WHIP := some v}) t g) := by
  refine ⟨?_, ?_, ?_, ?_, ?_, ?_, ?_, ?_, ?_, ?_⟩
  · intro h t g v v' hR hHR hRBI hSB hAVG hvv
    refine sg_hitter_lt_of_base_lt _ _ t g rfl ?_
    rw [hitterBaseSG_closed _ t g hR hHR hRBI hSB hAVG,
        hitterBaseSG_closed _ t g hR hHR hRBI hSB hAVG]
    simp only [orZero_some]
    gcongr
  · intro h t g v v' hR hHR hRBI hSB hAVG hvv
    refine sg_hitter_lt_of_base_lt _ _ t g rfl ?_
    rw [hitterBaseSG_closed _ t g hR hHR hRBI hSB hAVG,
        hitterBaseSG_closed _ t g hR hHR hRBI hSB hAVG]
    simp only [orZero_some]
    gcongr
  · intro h t g v v' hR hHR hRBI hSB hAVG hvv
    refine sg_hitter_lt_of_base_lt _ _ t g rfl ?_
    rw [hitterBaseSG_closed _ t g hR hHR hRBI hSB hAVG,
        hitterBaseSG_closed _ t g hR hHR hRBI hSB hAVG]
    simp only [orZero_some]
    gcongr
  · intro h t g v v' hR hHR hRBI hSB hAVG hvv
    refine sg_hitter_lt_of_base_lt _ _ t g rfl ?_
    rw [hitterBaseSG_closed _ t g hR hHR hRBI hSB hAVG,
        hitterBaseSG_closed _ t g hR hHR hRBI hSB hAVG]
    simp only [orZero_some]
    gcongr
  · intro h t g v v' hR hHR hRBI hSB hAVG hab hvv
    refine sg_hitter_lt_of_base_lt _ _ t g rfl ?_
    rw [hitterBaseSG_closed _ t g hR hHR hRBI hSB hAVG,
        hitterBaseSG_closed _ t g hR hHR hRBI hSB hAVG]
    simp only [orZero_some]
    rw [if_pos hab, if_pos hab]
    have hstep : (v / orZero h.AB - t.AVG) * orZero h.AB <
        (v' / orZero h.AB - t.AVG) * orZero h.AB := by
      apply mul_lt_mul_of_pos_right _ hab
      have := (div_lt_div_iff_of_pos_right hab).mpr hvv
      linarith
    gcongr
  · intro p t g v v' hW hK hSVH hERA hWHIP hvv
    refine sg_pitcher_lt_of_base_lt _ _ t g rfl ?_
    rw [pitcherBaseSG_closed _ t g hW hK hSVH hERA hWHIP,
        pitcherBaseSG_closed _ t g hW hK hSVH hERA hWHIP]
    simp only [orZero_some]
    gcongr
  · intro p t g v v' hW hK hSVH hERA hWHIP hvv
    refine sg_pitcher_lt_of_base_lt _ _ t g rfl ?_
    rw [pitcherBaseSG_closed _ t g hW hK hSVH hERA hWHIP,
        pitcherBaseSG_closed _ t g hW hK hSVH hERA hWHIP]
    simp only [orZero_some]
    gcongr
  · intro p t g v v' hW hK hSVH hERA hWHIP hvv
    refine sg_pitcher_lt_of_base_lt _ _ t g rfl ?_
    rw [pitcherBaseSG_closed _ t g hW hK hSVH hERA hWHIP,
        pitcherBaseSG_closed _ t g hW hK hSVH hERA hWHIP]
    simp only [orZero_some]
    gcongr
  · intro p t g v v' hW hK hSVH hERA hWHIP hip hvv
    refine sg_pitcher_lt_of_base_lt _ _ t g rfl ?_
    rw [pitcherBaseSG_closed _ t g hW hK hSVH hERA hWHIP,
        pitcherBaseSG_closed _ t g hW hK hSVH hERA hWHIP]
    simp only [orZero_some]
    simp only [if_pos hip]
    have hstep : (t.ERA - v') * orZero p.IP < (t.ERA - v) * orZero p.IP := by
      apply mul_lt_mul_of_pos_right _ hip
      linarith
    gcongr
  · intro p t g v v' hW hK hSVH hERA hWHIP hip hvv
    refine sg_pitcher_lt_of_base_lt _ _ t g rfl ?_
    rw [pitcherBaseSG_closed _ t g hW hK hSVH hERA hWHIP,
        pitcherBaseSG_closed _ t g hW hK hSVH hERA hWHIP]
    simp only [orZero_some]
    simp only [if_pos hip]
    have hstep : (t.WHIP - v') * orZero p.IP < (t.WHIP - v) * orZero p.IP := by
      apply mul_lt_mul_of_pos_right _ hip
      linarith
    gcongr

/-- Witness for C7 amended: raising a concrete hitter's runs from 1 to 2
under the all-ones gap set strictly raises the score. -/
theorem C7_witness :
    calculate_sg_value
        (.hitter {mkHitter none none none none none none none none with
          R := some 1}) c7team c7gaps <
      calculate_sg_value
        (.hitter {mkHitter none none none none none none none none with
          R := some 2}) c7team c7gaps :=
  C7_amended_monotonicity.1 (mkHitter none none none none none none none none)
    c7team c7gaps 1 2 (by norm_num [c7gaps]) (by norm_num [c7gaps])
    (by norm_num [c7gaps]) (by norm_num [c7gaps]) (by norm_num [c7gaps])
    (by norm_num)

lemma filter_map_const_sum (slots : List String) (P : String → Bool) (q : ℚ) :
    ((slots.filter P).map (fun _ => q)).sum =
      (slots.map (fun s => if P s then q else 0)).sum := by
  induction slots with
  | nil => rfl
  | cons s rest ih =>
      by_cases hP : P s
      · simp only [List.filter_cons, List.map_cons, List.sum_cons, if_pos hP, ih]
      · simp only [List.filter_cons, List.map_cons, List.sum_cons, if_neg hP, ih,
          zero_add]

lemma total_cost_eq_budgetLHS (b : Bool) (cs : List Candidate)
    (slots : List String) (alpha : ℤ → String → Bool) :
    total_cost b cs slots alpha = budgetLHS b cs slots alpha := by
  induction cs with
  | nil => rfl
  | cons c rest ih =>
      simp only [total_cost] at ih ⊢
      simp only [optimal_lineup, List.map_append, List.sum_append, List.map_map]
      rw [ih]
      simp only [budgetLHS, List.map_cons, List.sum_cons]
      congr 1
      exact filter_map_const_sum slots (fun s => varOn b alpha c s)
        c.adjustedSalary

lemma countP_filter_single (slots : List String) (P : String → Bool)
    (s : String) (hnd : slots.Nodup) (hs : s ∈ slots) :
    (slots.filter P).countP (fun x => x == s) = if P s then 1 else 0 := by
  induction slots with
  | nil => cases hs
  | cons a rest ih =>
      have hnd' := (List.nodup_cons.mp hnd).2
      have hanotin := (List.nodup_cons.mp hnd).1
      rcases List.mem_cons.mp hs with h | h
      · subst h
        have hzero : (rest.filter P).countP (fun x => x == s) = 0 := by
          refine List.countP_eq_zero.mpr ?_
          intro x hx
          have hxr : x ∈ rest := (List.mem_filter.mp hx).1
          simp only [beq_iff_eq]
          intro hxs
          exact hanotin (hxs ▸ hxr)
        rw [List.filter_cons]
        by_cases hP : P s
        · rw [if_pos hP, List.countP_cons, hzero, if_pos hP]
          simp
        · rw [if_neg hP, hzero, if_neg hP]
      · have hne : ¬((a == s) = true) := by
          simp only [beq_iff_eq]
          intro has
          exact hanotin (has ▸ h)
        rw [List.filter_cons]
        by_cases hP : P a
        · rw [if_pos hP, List.countP_cons, ih hnd' h, if_neg hne, add_zero]
        · rw [if_neg hP]
          exact ih hnd' h

lemma countP_slot_optimal_lineup (b : Bool) (cs : List Candidate)
    (slots : List String) (alpha : ℤ → String → Bool) (s : String)
    (hnd : slots.Nodup) (hs : s ∈ slots) :
    (optimal_lineup b cs slots alpha).countP (fun e => e.2 == s) =
      slotLHS b cs alpha s := by
  induction cs with
  | nil => simp [optimal_lineup, slotLHS]
  | cons c rest ih =>
      simp only [optimal_lineup, List.countP_append, slotLHS, List.map_cons,
        List.sum_cons, List.countP_map] at ih ⊢
      rw [ih]
      congr 1
      have := countP_filter_single slots (fun x => varOn b alpha c x) s hnd hs
      simpa [Function.comp] using this

lemma length_filter_eq_sum_indicator (slots : List String) (P : String → Bool) :
    (slots.filter P).length = (slots.map (fun s => if P s then 1 else 0)).sum := by
  induction slots with
  | nil => rfl
  | cons s rest ih =>
      by_cases hP : P s
      · simp only [List.filter_cons, List.map_cons, List.sum_cons, if_pos hP,
          List.length_cons, ih]
        omega
      · simp only [List.filter_cons, List.map_cons, List.sum_cons, if_neg hP, ih,
          Nat.zero_add]

lemma mem_optimal_lineup (b : Bool) (cs : List Candidate)
    (slots : List String) (alpha : ℤ → String → Bool)
    (e : Candidate × String) (he : e ∈ optimal_lineup b cs slots alpha) :
    e.1 ∈ cs := by
  induction cs with
  | nil => cases he
  | cons c rest ih =>
      simp only [optimal_lineup, List.mem_append] at he
      rcases he with h | h
      · rcases List.mem_map.mp h with ⟨s, _, hes⟩
        rw [← hes]
        exact List.mem_cons_self _ _
      · exact List.mem_cons_of_mem _ (ih h)

lemma countP_pid_optimal_lineup (b : Bool) (cs : List Candidate)
    (slots : List String) (alpha : ℤ → String → Bool) (pid : ℤ)
    (hnd : (cs.map (fun c => c.pid)).Nodup)
    (hOnce : ∀ c ∈ cs, playerLHS b slots alpha c ≤ 1) :
    (optimal_lineup b cs slots alpha).countP (fun e => e.1.pid == pid) ≤ 1 := by
  induction cs with
  | nil => simp [optimal_lineup]
  | cons c rest ih =>
      simp only [List.map_cons, List.nodup_cons] at hnd
      simp only [optimal_lineup, List.countP_append, List.countP_map]
      by_cases hpid : c.pid = pid
      · have hhead : (slots.filter (fun s => varOn b alpha c s)).countP
            ((fun e => e.1.pid == pid) ∘ fun s => (c, s)) =
            (slots.filter (fun s => varOn b alpha c s)).length := by
          apply List.countP_eq_length.mpr
          intro x _
          simp [Function.comp, hpid]
        have hrest :
            (optimal_lineup b rest slots alpha).countP
              (fun e => e.1.pid == pid) = 0 := by
          refine List.countP_eq_zero.mpr ?_
          intro e he
          have hmem := mem_optimal_lineup b rest slots alpha e he
          simp only [beq_iff_eq]
          intro habs
          apply hnd.1
          rw [← hpid] at habs
          rw [← habs]
          exact List.mem_map.mpr ⟨e.1, hmem, rfl⟩
        rw [hhead, hrest, length_filter_eq_sum_indicator]
        have hc := hOnce c (List.mem_cons_self _ _)
        simpa [playerLHS] using hc
      · have hhead : (slots.filter (fun s => varOn b alpha c s)).countP
            ((fun e => e.1.pid == pid) ∘ fun s => (c, s)) = 0 := by
          refine List.countP_eq_zero.mpr ?_
          intro x _
          simp [Function.comp, hpid]
        rw [hhead]
        simp only [Nat.zero_add]
        exact ih hnd.2 (fun c' hc' => hOnce c' (List.mem_cons_of_mem _ hc'))

/-- C4: if a 0/1 assignment satisfies the optimizer's three constraint
families — the lpSum budget constraint, the per-slot exact-fill equalities
and the per-candidate at-most-one inequalities (what the solver's `Optimal`
status guarantees about the extracted variable values) — then the extracted
lineup's total adjusted-salary cost is within the budget, every required slot
appears in exactly one lineup entry, and no candidate id appears in more
than one entry. -/
theorem C4_optimal_assignment_invariants (b : Bool) (cs : List Candidate)
    (slots : List String) (alpha : ℤ → String → Bool) (budget : ℚ)
    (hnd : (cs.map (fun c => c.pid)).Nodup) (hslots : slots.Nodup)
    (hBudget : budgetLHS b cs slots alpha ≤ budget)
    (hFill : ∀ s ∈ slots, slotLHS b cs alpha s = 1)
    (hOnce : ∀ c ∈ cs, playerLHS b slots alpha c ≤ 1) :
    total_cost b cs slots alpha ≤ budget ∧
    (∀ s ∈ slots,
      (optimal_lineup b cs slots alpha).countP (fun e => e.2 == s) = 1) ∧
    (∀ pid : ℤ,
      (optimal_lineup b cs slots alpha).countP (fun e => e.1.pid == pid) ≤ 1) := by
  refine ⟨?_, ?_, ?_⟩
  · rw [total_cost_eq_budgetLHS]
    exact hBudget
  · intro s hs
    rw [countP_slot_optimal_lineup b cs slots alpha s hslots hs]
    exact hFill s hs
  · intro pid
    exact countP_pid_optimal_lineup b cs slots alpha pid hnd hOnce

/-- Witness candidate pool for C4: one shortstop-eligible candidate. -/
def c4cand : Candidate := ⟨1, some "SS", 10, 5⟩

/-- Witness for C4: a single candidate assigned to the single ShortStop slot
satisfies all three constraint families, and the theorem yields the
invariants at that input. -/
theorem C4_witness :
    budgetLHS false [c4cand] ["ShortStop"] (fun _ _ => true) ≤ 10 ∧
    total_cost false [c4cand] ["ShortStop"] (fun _ _ => true) ≤ 10 ∧
    (optimal_lineup false [c4cand] ["ShortStop"] (fun _ _ => true)).countP
      (fun e => e.2 == "ShortStop") = 1 := by
  have hmap : POSITION_MAPPING "ShortStop" = ["SS"] := by decide
  have hB : budgetLHS false [c4cand] ["ShortStop"] (fun _ _ => true) ≤ 10 := by
    simp [budgetLHS, varOn, hasVar, c4cand, hmap]
  have h := C4_optimal_assignment_invariants false [c4cand] ["ShortStop"]
    (fun _ _ => true) 10 (by decide) (by decide) hB
    (by
      intro s hs
      rcases List.mem_singleton.mp hs with rfl
      decide)
    (by
      intro c hc
      rcases List.mem_singleton.mp hc with rfl
      decide)
  exact ⟨hB, h.1, h.2.1 "ShortStop" (List.mem_singleton.mpr rfl)⟩

/-- No raw position tag in any slot's eligibility list contains a comma. -/
lemma POSITION_MAPPING_no_comma (slot : String) :
    ∀ q ∈ POSITION_MAPPING slot, ',' ∉ q.toList := by
  have master : ∀ kv ∈ POSITION_MAPPING_ENTRIES, ∀ x ∈ kv.2, ',' ∉ x.toList := by
    decide
  intro q hq
  unfold POSITION_MAPPING at hq
  cases hfind : POSITION_MAPPING_ENTRIES.find? (fun kv => kv.1 == slot) with
  | none =>
      rw [hfind] at hq
      cases hq
  | some kv =>
      rw [hfind] at hq
      exact master kv (List.mem_of_find?_eq_some hfind) q hq

/-- The counterexample candidate for C5: a hitter eligible at 2B and SS. -/
def c5cand : Candidate := ⟨7, some "2B,SS", 0, 0⟩

/-- Counterexample to C5: the multi-position hitter "2B,SS" intersects the
SecondBase slot's eligibility list (2B is in both), yet the optimizer creates
no decision variable for the pair, because it tests the whole `Position`
string for list membership instead of splitting it. -/
theorem C5_counterexample :
    "2B" ∈ splitPositions "2B,SS" ∧
    "2B" ∈ POSITION_MAPPING "SecondBase" ∧
    hasVar false c5cand "SecondBase" = false := by
  refine ⟨by decide, by decide, by decide⟩

/-- C5 amended: a variable exists for (candidate, slot) iff the lineup is a
pitching one (every pitcher gets a variable for every open pitcher slot) or
the candidate's whole raw `Position` string is an element of the slot's
eligibility list; consequently a hitter whose `Position` field lists several
comma-separated positions gets a variable for no slot at all. -/
theorem C5_amended_variable_condition :
    (∀ (b : Bool) (c : Candidate) (slot : String),
      hasVar b c slot = true ↔
        (b = true ∨ ∃ p, c.pos = some p ∧ p ∈ POSITION_MAPPING slot)) ∧
    (∀ (c : Candidate) (slot : String) (p : String),
      c.pos = some p → ',' ∈ p.toList → hasVar false c slot = false) := by
  constructor
  · intro b c slot
    cases hc : c.pos with
    | none => simp [hasVar, hc]
    | some p => simp [hasVar, hc]
  · intro c slot p hp hcomma
    cases habs : hasVar false c slot
    · rfl
    · exfalso
      simp only [hasVar, hp, Bool.false_or] at habs
      have hmem : p ∈ POSITION_MAPPING slot := of_decide_eq_true habs
      exact POSITION_MAPPING_no_comma slot p hmem hcomma



/-- Witness for C5 amended: the comma-bearing candidate gets no variable for
the catcher slot either. -/
theorem C5_witness : hasVar false c5cand "C" = false :=
  C5_amended_variable_condition.2 c5cand "C" "2B,SS" rfl (by decide)

/-- A concrete candidate for the C6 scenario. -/
def c6cand : Candidate := ⟨3, some "SS", 5, 7⟩

/-- Counterexample to C6: with solver status `'Not Solved'` (PuLP's status
for a timed-out solve) and a nonempty incumbent assignment, the endpoint
returns the HTTP 400 error response and never the incumbent lineup. -/
theorem C6_counterexample :
    (optimal_lineup false [c6cand] ["ShortStop"] (fun _ _ => true)).length = 1 ∧
    handle_solve_status "Not Solved" false [c6cand] ["ShortStop"]
        (fun _ _ => true) =
      .err ("No optimal solution found. Status: " ++ "Not Solved")
        ["ShortStop"] ∧
    (∀ (lineup : List (Candidate × String)) (cost : ℚ),
      handle_solve_status "Not Solved" false [c6cand] ["ShortStop"]
          (fun _ _ => true) ≠ .ok lineup cost) := by
  refine ⟨rfl, rfl, ?_⟩
  intro lineup cost habs
  exact LineupResponse.noConfusion habs

/-- C6 amended: any solver status other than `'Optimal'` — including the
timeout statuses, whether or not an incumbent exists — produces the error
response carrying the status string and the open slots; only status
`'Optimal'` yields the extracted lineup and its total cost. -/
theorem C6_amended_non_optimal_is_error (status : String) (b : Bool)
    (cs : List Candidate) (slots : List String)
    (alpha : ℤ → String → Bool) :
    (status ≠ "Optimal" →
      handle_solve_status status b cs slots alpha =
        .err ("No optimal solution found. Status: " ++ status) slots) ∧
    (status = "Optimal" →
      handle_solve_status status b cs slots alpha =
        .ok (optimal_lineup b cs slots alpha) (total_cost b cs slots alpha)) := by
  constructor
  · intro h
    simp [handle_solve_status, h]
  · intro h
    simp [handle_solve_status, h]

/-- Witness for C6 amended: status `'Infeasible'` gives the error response;
status `'Optimal'` gives the lineup. -/
theorem C6_witness :
    handle_solve_status "Infeasible" false [c6cand] ["ShortStop"]
        (fun _ _ => true) =
      .err ("No optimal solution found. Status: " ++ "Infeasible")
        ["ShortStop"] ∧
    handle_solve_status "Optimal" false [c6cand] ["ShortStop"]
        (fun _ _ => true) =
      .ok (optimal_lineup false [c6cand] ["ShortStop"] (fun _ _ => true))
        (total_cost false [c6cand] ["ShortStop"] (fun _ _ => true)) :=
  ⟨(C6_amended_non_optimal_is_error "Infeasible" false [c6cand] ["ShortStop"]
      (fun _ _ => true)).1 (by decide),
   (C6_amended_non_optimal_is_error "Optimal" false [c6cand] ["ShortStop"]
      (fun _ _ => true)).2 rfl⟩

/-- The C8 counterexample request: all fields present, scope "both", and a
bench quota of 5 against the hardcoded total bench capacity of 3. -/
def c8req : LineupRequest := ⟨some 1, some 1, some 100, some "both", some 5⟩

/-- Counterexample to C8: a "both"-scope request with bench quota 5 (more
than the 3 total bench slots) sails through every pre-computation check —
the validator reports no error — and the pitcher bench quota silently
becomes 3 − 5 = −2; nothing rejects the request as invalid. -/
theorem C8_counterexample :
    validate_lineup_request c8req = none ∧
    c8req.bench_positions = some 5 ∧ (3 : ℤ) < 5 ∧
    pitcher_bench_quota 5 = -2 := by
  refine ⟨by decide, rfl, by norm_num, by decide⟩

/-- C8 amended: pre-computation validation checks only the presence of the
five required fields and the lowercased lineup type, never the bench quota
(its outcome is identical for any two quota values); an over-capacity quota
in "both" scope instead flows through: the pitcher bench quota goes
non-positive so the bench filter opens no pitcher bench slot, while every
hitter bench slot up to the 3 that exist stays open. -/
theorem C8_amended_no_bench_validation :
    (∀ (r : LineupRequest) (q q' : ℤ),
      validate_lineup_request {r with bench_positions := some q} =
        validate_lineup_request {r with bench_positions := some q'}) ∧
    bench_filter PITCHER_POSITIONS (pitcher_bench_quota 5) =
      ["Pitcher1", "Pitcher2", "Pitcher3", "Pitcher4", "Pitcher5",
       "Pitcher6", "Pitcher7", "Pitcher8", "Pitcher9"] ∧
    bench_filter HITTER_POSITIONS 5 = HITTER_POSITIONS := by
  refine ⟨?_, by decide, by decide⟩
  intro r q q'
  rfl

/-- Witness for C8 amended: the validator's verdict on the counterexample
request is unchanged when its quota 5 is replaced by the in-range 2. -/
theorem C8_witness :
    validate_lineup_request {c8req with bench_positions := some 5} =
      validate_lineup_request {c8req with bench_positions := some 2} :=
  C8_amended_no_bench_validation.1 c8req 5 2

/-- The C9 counterexample row: a hitter flagged FA while still referencing
team 2's roster. -/
def c9hitter : Hitter :=
  ⟨42, none, none, none, none, none, none, none, none, "FA", some 2, none, none⟩

/-- Counterexample to C9: the candidate pool for team 1 includes a hitter
whose `HittingTeamId` is 2 — a player currently assigned to another team's
roster — because the query only requires `Status = 'FA'` and a team id
different from the requesting team, not the absence of any assignment. -/
theorem C9_counterexample :
    c9hitter ∈ get_available_hitters 1 [c9hitter] ∧
    ¬ specFreeAgentHitter c9hitter := by
  constructor
  · have h : get_available_hitters 1 [c9hitter] = [c9hitter] := rfl
    rw [h]
    exact List.mem_singleton.mpr rfl
  · simp [specFreeAgentHitter, c9hitter]

/-- C9 amended: every player in the candidate pool has status 'FA' and is
not assigned to the requesting team — but may still carry another team's
assignment reference, as the counterexample shows. -/
theorem C9_amended_pool_characterization :
    (∀ (team_id : ℤ) (table : List Hitter) (h : Hitter),
      h ∈ get_available_hitters team_id table →
        h.Status = "FA" ∧ h.HittingTeamId ≠ some team_id) ∧
    (∀ (team_id : ℤ) (table : List Pitcher) (p : Pitcher),
      p ∈ get_available_pitchers team_id table →
        p.Status = "FA" ∧ p.PitchingTeamId ≠ some team_id) := by
  constructor
  · intro tid table h hx
    have hf := (List.mem_filter.mp hx).2
    rw [Bool.and_eq_true] at hf
    refine ⟨by simpa [beq_iff_eq] using hf.2, ?_⟩
    cases hteam : h.HittingTeamId with
    | none => simp
    | some t =>
        rw [hteam] at hf
        have := of_decide_eq_true hf.1
        simpa using this
  · intro tid table p hx
    have hf := (List.mem_filter.mp hx).2
    rw [Bool.and_eq_true] at hf
    refine ⟨by simpa [beq_iff_eq] using hf.2, ?_⟩
    cases hteam : p.PitchingTeamId with
    | none => simp
    | some t =>
        rw [hteam] at hf
        have := of_decide_eq_true hf.1
        simpa using this

/-- A genuinely unassigned free-agent hitter for the C9 witness. -/
def c9free : Hitter :=
  ⟨43, none, none, none, none, none, none, none, none, "FA", none, none, none⟩

/-- Witness for C9 amended: a pool member for team 5 has FA status and no
assignment to team 5. -/
theorem C9_witness :
    c9free.Status = "FA" ∧ c9free.HittingTeamId ≠ some 5 :=
  C9_amended_pool_characterization.1 5 [c9free] c9free
    (by
      have h : get_available_hitters 5 [c9free] = [c9free] := rfl
      rw [h]
      exact List.mem_singleton.mpr rfl)

lemma roundHalfEven_intCast (m : ℤ) : roundHalfEven (m : ℚ) = m := by
  simp only [roundHalfEven, Int.floor_intCast, sub_self]
  norm_num

lemma roundTo_of_mul_pow_int (n : ℕ) (q : ℚ) (m : ℤ)
    (hm : q * 10 ^ n = (m : ℚ)) : roundTo n q = q := by
  unfold roundTo
  rw [hm, roundHalfEven_intCast, ← hm]
  rw [mul_div_assoc]
  rw [div_self (by positivity : (10 : ℚ) ^ n ≠ 0), mul_one]

lemma filterMap_avg_eq_map (a : ℚ) (hs : List Hitter)
    (hc : ∀ h ∈ hs, h.AVG = some (orZero h.H / a)) :
    hs.filterMap (fun h => h.AVG) = hs.map (fun h => orZero h.H / a) := by
  induction hs with
  | nil => rfl
  | cons h rest ih =>
      rw [List.filterMap_cons_some (hc h (List.mem_cons_self _ _)),
          List.map_cons, ih (fun x hx => hc x (List.mem_cons_of_mem _ hx))]

lemma filterMap_era_eq_map (ps : List Pitcher)
    (hc : ∀ p ∈ ps, ∃ e, p.ERA = some e) :
    ps.filterMap (fun p => p.ERA) = ps.map (fun p => orZero p.ERA) := by
  induction ps with
  | nil => rfl
  | cons p rest ih =>
      obtain ⟨e, he⟩ := hc p (List.mem_cons_self _ _)
      have he' : p.ERA = some (orZero p.ERA) := by rw [he]; rfl
      rw [List.filterMap_cons_some he', List.map_cons,
          ih (fun x hx => hc x (List.mem_cons_of_mem _ hx))]

lemma sum_map_div_const {α : Type} (l : List α) (f : α → ℚ) (a : ℚ) :
    (l.map (fun x => f x / a)).sum = (l.map f).sum / a := by
  induction l with
  | nil => simp
  | cons x rest ih => simp [ih, add_div]

lemma sum_map_const_of {α : Type} (l : List α) (f : α → ℚ) (a : ℚ)
    (hc : ∀ x ∈ l, f x = a) :
    (l.map f).sum = l.length * a := by
  induction l with
  | nil => simp
  | cons x rest ih =>
      rw [List.map_cons, List.sum_cons, hc x (List.mem_cons_self _ _),
          ih (fun y hy => hc y (List.mem_cons_of_mem _ hy)), List.length_cons]
      push_cast
      ring

lemma sum_map_mul_div_const {α : Type} (l : List α) (f g : α → ℚ) (c ip : ℚ)
    (hc : ∀ x ∈ l, g x = ip) :
    (l.map (fun x => f x * g x / c)).sum = (l.map f).sum * ip / c := by
  induction l with
  | nil => simp
  | cons x rest ih =>
      rw [List.map_cons, List.sum_cons, hc x (List.mem_cons_self _ _),
          ih (fun y hy => hc y (List.mem_cons_of_mem _ hy)), List.map_cons,
          List.sum_cons]
      ring

/-- Under equal at-bats `a` and stored per-hitter AVG consistent with raw
hits, the thin endpoint's AVG is the 3-decimal rounding of the core
pipeline's weighted AVG. -/
lemma thin_avg_eq_round_core (a : ℚ) (hs : List Hitter) (hne : hs ≠ [])
    (ha : 0 < a)
    (hc : ∀ h ∈ hs, h.AB = some a ∧ h.AVG = some (orZero h.H / a)) :
    get_team_hitting_stats_AVG hs =
      roundTo 3 ((get_current_team_stats hs []).AVG) := by
  obtain ⟨h0, rest, rfl⟩ : ∃ h0 rest, hs = h0 :: rest := by
    cases hs with
    | nil => exact absurd rfl hne
    | cons x xs => exact ⟨x, xs, rfl⟩
  have hcAB : ∀ h ∈ h0 :: rest, orZero (Hitter.AB h) = a := by
    intro x hx
    rw [(hc x hx).1, orZero_some]
  have hab := sum_map_const_of (h0 :: rest) (fun h => orZero h.AB) a hcAB
  have hlen : (0 : ℚ) < (((h0 :: rest).length : ℕ) : ℚ) := by
    exact_mod_cast Nat.succ_pos rest.length
  have htal : (0 : ℚ) < ((h0 :: rest).map (fun h => orZero h.AB)).sum := by
    rw [hab]
    exact mul_pos hlen ha
  have hcore : (get_current_team_stats (h0 :: rest) []).AVG =
      ((h0 :: rest).map (fun h => orZero h.H)).sum /
        ((((h0 :: rest).length : ℕ) : ℚ) * a) := by
    simp only [get_current_team_stats, hittingLoop_eq, pitchingLoop_eq,
      zero_add]
    rw [if_pos htal, hab]
  have hthin : get_team_hitting_stats_AVG (h0 :: rest) =
      roundTo 3 ((((h0 :: rest).map (fun h => orZero h.H)).sum / a) /
        (((h0 :: rest).length : ℕ) : ℚ)) := by
    simp only [get_team_hitting_stats_AVG, List.isEmpty_cons,
      Bool.false_eq_true, if_false]
    rw [filterMap_avg_eq_map a (h0 :: rest) (fun x hx => (hc x hx).2)]
    rw [List.length_map]
    rw [if_pos (show 0 < (h0 :: rest).length from Nat.succ_pos rest.length)]
    rw [sum_map_div_const]
  rw [hthin, hcore]
  congr 1
  rw [div_div]
  rw [mul_comm a (((h0 :: rest).length : ℕ) : ℚ)]

/-- Under equal innings pitched `ip`, the thin endpoint's ERA is the
2-decimal rounding of the core pipeline's innings-weighted ERA. -/
lemma thin_era_eq_round_core (ip : ℚ) (ps : List Pitcher) (hne : ps ≠ [])
    (hip : 0 < ip)
    (hc : ∀ p ∈ ps, p.IP = some ip ∧ ∃ e, p.ERA = some e) :
    get_team_pitching_stats_ERA ps =
      roundTo 2 ((get_current_team_stats [] ps).ERA) := by
  obtain ⟨p0, rest, rfl⟩ : ∃ p0 rest, ps = p0 :: rest := by
    cases ps with
    | nil => exact absurd rfl hne
    | cons x xs => exact ⟨x, xs, rfl⟩
  have hcIP : ∀ p ∈ p0 :: rest, orZero (Pitcher.IP p) = ip := by
    intro x hx
    rw [(hc x hx).1, orZero_some]
  have hipsum := sum_map_const_of (p0 :: rest) (fun p => orZero p.IP) ip hcIP
  have hlen : (0 : ℚ) < (((p0 :: rest).length : ℕ) : ℚ) := by
    exact_mod_cast Nat.succ_pos rest.length
  have htip : (0 : ℚ) < ((p0 :: rest).map (fun p => orZero p.IP)).sum := by
    rw [hipsum]
    exact mul_pos hlen hip
  have her := sum_map_mul_div_const (p0 :: rest) (fun p => orZero p.ERA)
    (fun p => orZero p.IP) 9 ip hcIP
  have hipne : ip ≠ 0 := ne_of_gt hip
  have hlenne : (((p0 :: rest).length : ℕ) : ℚ) ≠ 0 := ne_of_gt hlen
  have hcore : (get_current_team_stats [] (p0 :: rest)).ERA =
      ((p0 :: rest).map (fun p => orZero p.ERA)).sum /
        (((p0 :: rest).length : ℕ) : ℚ) := by
    simp only [get_current_team_stats, hittingLoop_eq, pitchingLoop_eq,
      zero_add]
    rw [if_pos htip, hipsum, her]
    field_simp
    ring
  have hthin : get_team_pitching_stats_ERA (p0 :: rest) =
      roundTo 2 (((p0 :: rest).map (fun p => orZero p.ERA)).sum /
        (((p0 :: rest).length : ℕ) : ℚ)) := by
    simp only [get_team_pitching_stats_ERA, List.isEmpty_cons,
      Bool.false_eq_true, if_false]
    rw [filterMap_era_eq_map (p0 :: rest) (fun x hx => (hc x hx).2)]
    rw [List.length_map]
    rw [if_pos (show 0 < (p0 :: rest).length from Nat.succ_pos rest.length)]
  rw [hthin, hcore]

/-- Two hitters with equal at-bats (3 each) and stored AVG consistent with
their raw hits (1-for-3 apiece). -/
def c10eq : List Hitter :=
  [mkHitter none none none none (some 3) (some 1) (some (1/3)) none,
   mkHitter none none none none (some 3) (some 1) (some (1/3)) none]

/-- Counterexample to C10's coincidence clause: on a roster where every
hitter carries the same weight (AB 3 each, stored AVG = hits/at-bats), the
thin endpoint returns 0.333 (it rounds the mean to 3 decimals) while the
core pipeline returns exactly 1/3 — the two computations do NOT coincide
under equal weights. -/
theorem C10_counterexample :
    (∀ h ∈ c10eq, h.AB = some 3 ∧ h.AVG = some (orZero h.H / 3)) ∧
    get_team_hitting_stats_AVG c10eq = 333/1000 ∧
    (get_current_team_stats c10eq []).AVG = 1/3 ∧
    (333/1000 : ℚ) ≠ 1/3 := by
  refine ⟨?_, ?_, ?_, by norm_num⟩
  · intro h hh
    simp only [c10eq, List.mem_cons, List.not_mem_nil, or_false] at hh
    rcases hh with rfl | rfl <;>
      exact ⟨rfl, by norm_num [mkHitter, orZero]⟩
  · norm_num [get_team_hitting_stats_AVG, c10eq, mkHitter,
      List.filterMap_cons, roundTo, roundHalfEven]
  · norm_num [get_current_team_stats, hittingLoop_eq, pitchingLoop_eq,
      c10eq, mkHitter, orZero]

/-- Two hitters with unequal at-bats (100 vs 300) and consistent stored
rates: .300 on 100 AB and .200 on 300 AB. -/
def c10hu : List Hitter :=
  [mkHitter none none none none (some 100) (some 30) (some (3/10)) none,
   mkHitter none none none none (some 300) (some 60) (some (1/5)) none]

/-- Two pitchers with unequal innings: ERA 3.00 over 100 IP and 5.00 over
50 IP. -/
def c10pu : List Pitcher :=
  [mkPitcher (some 3) (some 100), mkPitcher (some 5) (some 50)]

/-- C10 amended: the thin endpoints and the core pipeline are genuinely
different computations — on unequal at-bats (resp. innings) they disagree
(thin hitting AVG .250 vs core .225; thin ERA 4.00 vs core 11/3) — and under
equal weights with stored rates consistent with the raw totals the thin
value equals the core value rounded to the endpoint's precision (3 decimals
for AVG, 2 for ERA), so they coincide exactly when the core value is
representable at that precision. -/
theorem C10_amended_two_aggregations :
    get_team_hitting_stats_AVG c10hu ≠ (get_current_team_stats c10hu []).AVG ∧
    get_team_hitting_stats_AVG c10hu = 1/4 ∧
    (get_current_team_stats c10hu []).AVG = 9/40 ∧
    get_team_pitching_stats_ERA c10pu ≠ (get_current_team_stats [] c10pu).ERA ∧
    get_team_pitching_stats_ERA c10pu = 4 ∧
    (get_current_team_stats [] c10pu).ERA = 11/3 ∧
    (∀ (a : ℚ) (hs : List Hitter), hs ≠ [] → 0 < a →
      (∀ h ∈ hs, h.AB = some a ∧ h.AVG = some (orZero h.H / a)) →
      get_team_hitting_stats_AVG hs =
        roundTo 3 ((get_current_team_stats hs []).AVG)) ∧
    (∀ (ip : ℚ) (ps : List Pitcher), ps ≠ [] → 0 < ip →
      (∀ p ∈ ps, p.IP = some ip ∧ ∃ e, p.ERA = some e) →
      get_team_pitching_stats_ERA ps =
        roundTo 2 ((get_current_team_stats [] ps).ERA)) ∧
    (∀ (a : ℚ) (hs : List Hitter) (m : ℤ), hs ≠ [] → 0 < a →
      (∀ h ∈ hs, h.AB = some a ∧ h.AVG = some (orZero h.H / a)) →
      (get_current_team_stats hs []).AVG * 10 ^ 3 = (m : ℚ) →
      get_team_hitting_stats_AVG hs = (get_current_team_stats hs []).AVG) := by
  have hthin : get_team_hitting_stats_AVG c10hu = 1/4 := by
    norm_num [get_team_hitting_stats_AVG, c10hu, mkHitter,
      List.filterMap_cons, roundTo, roundHalfEven]
  have hcore : (get_current_team_stats c10hu []).AVG = 9/40 := by
    norm_num [get_current_team_stats, hittingLoop_eq, pitchingLoop_eq,
      c10hu, mkHitter, orZero]
  have hpthin : get_team_pitching_stats_ERA c10pu = 4 := by
    norm_num [get_team_pitching_stats_ERA, c10pu, mkPitcher,
      List.filterMap_cons, roundTo, roundHalfEven]
  have hpcore : (get_current_team_stats [] c10pu).ERA = 11/3 := by
    norm_num [get_current_team_stats, hittingLoop_eq, pitchingLoop_eq,
      c10pu, mkPitcher, orZero]
  refine ⟨?_, hthin, hcore, ?_, hpthin, hpcore, ?_, ?_, ?_⟩
  · rw [hthin, hcore]; norm_num
  · rw [hpthin, hpcore]; norm_num
  · exact fun a hs hne ha hc => thin_avg_eq_round_core a hs hne ha hc
  · exact fun ip ps hne hip hc => thin_era_eq_round_core ip ps hne hip hc
  · intro a hs m hne ha hc hm
    rw [thin_avg_eq_round_core a hs hne ha hc]
    rw [roundTo_of_mul_pow_int 3 _ m hm]

/-- An equal-weight roster whose common average 1/4 is exactly representable
at 3 decimals. -/
def c10w : List Hitter :=
  [mkHitter none none none none (some 4) (some 1) (some (1/4)) none,
   mkHitter none none none none (some 4) (some 1) (some (1/4)) none]

/-- Witness for C10 amended: on the equal-weight roster the thin AVG equals
the rounded core AVG, via the general coincidence part of the theorem. -/
theorem C10_witness :
    get_team_hitting_stats_AVG c10w =
      roundTo 3 ((get_current_team_stats c10w []).AVG) :=
  C10_amended_two_aggregations.2.2.2.2.2.2.1 4 c10w (by simp [c10w])
    (by norm_num)
    (by
      intro h hh
      simp only [c10w, List.mem_cons, List.not_mem_nil, or_false] at hh
      rcases hh with rfl | rfl <;>
        exact ⟨rfl, by norm_num [mkHitter, orZero]⟩)

end FantasyBaseball
